import Mathlib

/-!
Shallow embedding of the rate-shopper application (src/app.py) and
verification of its specification claims.

The program is a Streamlit dashboard over a SQLite store with four tables
(hoteis, relacionamentos, importacoes, tarifas) and a comparative price
matrix page.  We embed:

* the SQLite store as a `Store` of four lists of rows, and each CRUD
  function of the source as a function `Store → Store`;
* the "Matriz Comparativa" page's data pipeline: the period filter over
  tarifas, the `matriz_dados` cell construction (`cellOf`), and the inline
  competitor-cell classification (`classificar`).

Numeric conventions: prices (SQLite REAL / Python float) are modelled as
`ℚ`; dates as day ordinals `ℕ`.  Python's display formatting
`f"{x:.0f}"`, which the source applies when it stores a multi-price cell
as the string `"min→max"` and later re-parses with
`float(valor.split('→')[0])`, is modelled by `fmt0` (round to nearest
integer, ties to even, which is Python's float formatting rule).
-/

namespace RateShopper

/-- Python `f"{x:.0f}"` rounding: nearest integer, ties to even. -/
def fmt0 (q : ℚ) : ℤ :=
  let f := ⌊q⌋
  let r := q - (f : ℚ)
  if r < 1/2 then f
  else if 1/2 < r then f + 1
  else if f % 2 = 0 then f else f + 1

/-- A row of the `tarifas` table: columns hotel, data, preco, sequencia
(src/app.py lines 64-76; the autoincrement id is not referenced by any
claim and is omitted). -/
structure Tarifa where
  hotel : String
  data : ℕ
  preco : ℚ
  sequencia : ℕ
  deriving DecidableEq

/-- The value stored in `matriz_dados[hotel][data]` (src/app.py lines
833-856): Python `None`, a float price, or the display string
`f"{preco_min:.0f}→{preco_max:.0f}"`, which carries only the two rounded
integers. -/
inductive MatrizVal where
  | nulo
  | preco (p : ℚ)
  | faixa (mn mx : ℤ)
  deriving DecidableEq

/-- Cell construction of the `matriz_dados` loop (src/app.py lines
839-856): 0 rows → None, 1 row → its price, ≥ 2 rows → compute min, max
and `variacao_pct = ((max-min)/min)*100`; if positive store the rounded
display string, else the min price.  (Python raises ZeroDivisionError
when `preco_min = 0`; in `ℚ` the division yields 0, a case no theorem
below relies on — every theorem about this function assumes positive
prices.) -/
def cellOf : List ℚ → MatrizVal
  | [] => .nulo
  | [p] => .preco p
  | p :: q :: ps =>
    let precoMin := (q :: ps).foldl min p
    let precoMax := (q :: ps).foldl max p
    let variacaoPct := ((precoMax - precoMin) / precoMin) * 100
    if 0 < variacaoPct then .faixa (fmt0 precoMin) (fmt0 precoMax)
    else .preco precoMin

/-- `pd.date_range(data_inicio, data_fim).date`: the inclusive day list
(src/app.py line 839/859); empty when `ini > fim`. -/
def datasPeriodo (ini fim : ℕ) : List ℕ := List.range' ini (fim + 1 - ini)

/-- The period filter `tarifas_periodo` (src/app.py lines 809-812):
keep observations with `ini ≤ data ≤ fim`. -/
def tarifasPeriodo (tarifas : List Tarifa) (ini fim : ℕ) : List Tarifa :=
  tarifas.filter (fun t => ini ≤ t.data ∧ t.data ≤ fim)

/-- The matrix construction of the Matriz Comparativa page (src/app.py
lines 809-864): filter to the period (warning and no matrix when empty,
line 814), restrict to `[hotel_principal] + concorrentes` (warning and no
matrix when empty, line 826), then one cell per (hotel, date) of the
inclusive range.  `none` models the early-warning paths on which no
matrix is built. -/
def montarMatriz (principal : String) (concorrentes : List String) (ini fim : ℕ)
    (tarifas : List Tarifa) : Option (List (String × List (ℕ × MatrizVal))) :=
  let periodo := tarifasPeriodo tarifas ini fim
  if periodo.isEmpty then none else
    let hoteisMatriz := principal :: concorrentes
    let matriz := periodo.filter (fun t => t.hotel ∈ hoteisMatriz)
    if matriz.isEmpty then none else
      some (hoteisMatriz.map (fun h =>
        (h, (datasPeriodo ini fim).map (fun d =>
          (d, cellOf ((matriz.filter (fun t => t.hotel = h ∧ t.data = d)).map (·.preco)))))))

/-- The three colour classes of a classified competitor cell
(AMEAÇA/red, SEGURO/green, NEUTRO/grey; src/app.py lines 920-928). -/
inductive Classe where
  | ameaca
  | seguro
  | neutro
  deriving DecidableEq

/-- Scalar extraction applied to a matrix value before comparison
(src/app.py lines 907-917): a range cell is re-parsed from its display
string, `float(valor.split('→')[0])`, i.e. its rounded lower bound; a
plain price is used as is; `None` has no value. -/
def extrairValor : MatrizVal → Option ℚ
  | .nulo => none
  | .preco p => some p
  | .faixa mn _ => some (mn : ℚ)

/-- The inline competitor-cell classification (src/app.py lines 890-938):
classification happens only when both the competitor cell and the
principal's cell of that date are non-empty; then
`concorrente < principal * 0.95` → AMEAÇA,
`concorrente > principal * 1.05` → SEGURO, else NEUTRO.
`none` models "no classification rendered". -/
def classificar (valorConc valorPrinc : MatrizVal) : Option Classe :=
  match extrairValor valorPrinc, extrairValor valorConc with
  | some vp, some vc =>
    if vc < vp * (19/20) then some .ameaca
    else if vp * (21/20) < vc then some .seguro
    else some .neutro
  | _, _ => none

/-- Modelled from the spec: the spec's abstract Matrix Builder cell
(§4.2: Empty / Single(price) / Range(min_price, max_price) over exact
prices).  Used only to compare claim C2's wording with the code's
`MatrizVal`. -/
inductive SpecCell where
  | empty
  | single (p : ℚ)
  | range (mn mx : ℚ)
  deriving DecidableEq

/-- Modelled from the spec: the cell the spec's §4.2 prescribes for a
given observation list — Range over the exact min and max, degenerating
to Single when they are equal. -/
def specCellOf : List ℚ → SpecCell
  | [] => .empty
  | [p] => .single p
  | p :: q :: ps =>
    let mn := (q :: ps).foldl min p
    let mx := (q :: ps).foldl max p
    if mn = mx then .single mn else .range mn mx

/-- Correspondence between a code cell and a spec cell: the code cell
carries exactly the values the spec cell prescribes. -/
def corresponde : MatrizVal → SpecCell → Prop
  | .nulo, .empty => True
  | .preco p, .single p2 => p = p2
  | .faixa mn mx, .range mn2 mx2 => (mn : ℚ) = mn2 ∧ (mx : ℚ) = mx2
  | _, _ => False

/-- A row of the `hoteis` table (src/app.py lines 30-37). -/
structure Hotel where
  nome : String
  bookingUrl : String
  deriving DecidableEq

/-- A row of the `relacionamentos` table (src/app.py lines 40-49). -/
structure Relacionamento where
  principal : String
  concorrente : String
  deriving DecidableEq

/-- A row of the `importacoes` table (src/app.py lines 52-61). -/
structure Importacao where
  id : ℕ
  titulo : String
  hotel : String
  totalRegistros : ℕ
  deriving DecidableEq

/-- A processed spreadsheet row handed to `importar_tarifas_excel`
(src/app.py lines 248-251): `row.get('sequencia', 1)` defaults a missing
sequence column to 1. -/
structure LinhaExcel where
  data : ℕ
  preco : ℚ
  sequencia : Option ℕ
  deriving DecidableEq

/-- The SQLite database: the four tables, each as its list of rows in
rowid (insertion) order. -/
structure Store where
  hoteis : List Hotel
  relacionamentos : List Relacionamento
  importacoes : List Importacao
  tarifas : List Tarifa
  deriving DecidableEq

/-- `atualizar_hotel` (src/app.py lines 101-108):
`UPDATE hoteis SET nome = ?, booking_url = ? WHERE nome = ?`. -/
def atualizarHotel (s : Store) (nomeAntigo nomeNovo url : String) : Store :=
  { s with hoteis := s.hoteis.map (fun h =>
      if h.nome = nomeAntigo then { nome := nomeNovo, bookingUrl := url } else h) }

/-- `excluir_hotel` (src/app.py lines 110-119): four DELETEs — tarifas of
the hotel, relacionamentos where it is principal or concorrente,
importacoes of the hotel, and the hotel row itself. -/
def excluirHotel (s : Store) (nome : String) : Store :=
  { s with
    tarifas := s.tarifas.filter (fun t => ¬ t.hotel = nome)
    relacionamentos := s.relacionamentos.filter
      (fun r => ¬ (r.principal = nome ∨ r.concorrente = nome))
    importacoes := s.importacoes.filter (fun i => ¬ i.hotel = nome)
    hoteis := s.hoteis.filter (fun h => ¬ h.nome = nome) }

/-- `criar_relacionamento` (src/app.py lines 122-129): plain INSERT. -/
def criarRelacionamento (s : Store) (principal concorrente : String) : Store :=
  { s with relacionamentos := s.relacionamentos ++ [⟨principal, concorrente⟩] }

/-- `excluir_relacionamentos` (src/app.py lines 143-149):
`DELETE FROM relacionamentos WHERE hotel_principal = ?`. -/
def excluirRelacionamentos (s : Store) (principal : String) : Store :=
  { s with relacionamentos := s.relacionamentos.filter (fun r => ¬ r.principal = principal) }

/-- `obter_concorrentes` (src/app.py lines 151-158):
`SELECT concorrente FROM relacionamentos WHERE hotel_principal = ?`
(no DISTINCT), returned in rowid order. -/
def obterConcorrentes (s : Store) (principal : String) : List String :=
  (s.relacionamentos.filter (fun r => r.principal = principal)).map (·.concorrente)

/-- The "Salvar Relacionamentos" handler (src/app.py lines 510-516):
delete all relationships of the principal, then insert the selected
competitors one by one. -/
def salvarRelacionamentos (s : Store) (principal : String) (selecionados : List String) : Store :=
  selecionados.foldl (fun st c => criarRelacionamento st principal c)
    (excluirRelacionamentos s principal)

/-- `excluir_importacao` (src/app.py lines 183-199): look the batch up;
if present delete only the `importacoes` row (the source comments that
tarifas cannot be identified, so they stay); if absent do nothing. -/
def excluirImportacao (s : Store) (importacaoId : ℕ) : Store :=
  if (s.importacoes.filter (fun i => i.id = importacaoId)).isEmpty then s
  else { s with importacoes := s.importacoes.filter (fun i => ¬ i.id = importacaoId) }

/-- `importar_tarifas_excel` (src/app.py lines 242-258): insert one
tarifa per spreadsheet row (sequencia defaulting to 1) and return the row
count; the `titulo_importacao` argument is never used and the
`importacoes` table is never touched. -/
def importarTarifasExcel (s : Store) (hotel : String) (linhas : List LinhaExcel)
    (tituloImportacao : String) : Store × ℕ :=
  (linhas.foldl (fun st linha =>
      { st with tarifas :=
          st.tarifas ++ [⟨hotel, linha.data, linha.preco, linha.sequencia.getD 1⟩] }) s,
   linhas.length)

/-- `listar_tarifas_por_hotel` (src/app.py lines 222-232):
`SELECT ... FROM tarifas WHERE hotel = ?` (the ORDER BY only reorders
rows and is irrelevant to the claims below, so rowid order is kept). -/
def listarTarifasPorHotel (s : Store) (hotel : String) : List Tarifa :=
  s.tarifas.filter (fun t => t.hotel = hotel)

/-! ### Helper lemmas -/

lemma fmt0_of_lt_half {q : ℚ} {f : ℤ} (h1 : (f : ℚ) ≤ q) (h2 : q - f < 1/2) :
    fmt0 q = f := by
  have hf : ⌊q⌋ = f := Int.floor_eq_iff.mpr ⟨h1, by linarith⟩
  unfold fmt0
  rw [hf, if_pos h2]

lemma fmt0_of_gt_half {q : ℚ} {f : ℤ} (h1 : (f : ℚ) ≤ q) (h2 : 1/2 < q - f)
    (h3 : q < f + 1) : fmt0 q = f + 1 := by
  have hf : ⌊q⌋ = f := Int.floor_eq_iff.mpr ⟨h1, by exact_mod_cast h3⟩
  unfold fmt0
  rw [hf, if_neg (by linarith), if_pos h2]

lemma foldl_min_mem : ∀ (l : List ℚ) (a : ℚ), l.foldl min a ∈ a :: l := by
  intro l
  induction l with
  | nil => intro a; simp
  | cons b t ih =>
    intro a
    rw [List.foldl_cons]
    rcases List.mem_cons.1 (ih (min a b)) with h2 | h2
    · rcases min_choice a b with h1 | h1
      · rw [h2, h1]; exact List.mem_cons_self _ _
      · rw [h2, h1]; exact List.mem_cons_of_mem _ (List.mem_cons_self _ _)
    · exact List.mem_cons_of_mem _ (List.mem_cons_of_mem _ h2)

lemma foldl_min_le : ∀ (l : List ℚ) (a : ℚ), ∀ x ∈ a :: l, l.foldl min a ≤ x := by
  intro l
  induction l with
  | nil => intro a x hx; simp at hx; simp [hx]
  | cons b t ih =>
    intro a x hx
    rw [List.foldl_cons]
    have hbase : t.foldl min (min a b) ≤ min a b := ih (min a b) _ (List.mem_cons_self _ _)
    rcases List.mem_cons.1 hx with rfl | hx2
    · exact le_trans hbase (min_le_left _ _)
    · rcases List.mem_cons.1 hx2 with rfl | hx3
      · exact le_trans hbase (min_le_right _ _)
      · exact ih (min a b) _ (List.mem_cons_of_mem _ hx3)

lemma foldl_max_mem : ∀ (l : List ℚ) (a : ℚ), l.foldl max a ∈ a :: l := by
  intro l
  induction l with
  | nil => intro a; simp
  | cons b t ih =>
    intro a
    rw [List.foldl_cons]
    rcases List.mem_cons.1 (ih (max a b)) with h2 | h2
    · rcases max_choice a b with h1 | h1
      · rw [h2, h1]; exact List.mem_cons_self _ _
      · rw [h2, h1]; exact List.mem_cons_of_mem _ (List.mem_cons_self _ _)
    · exact List.mem_cons_of_mem _ (List.mem_cons_of_mem _ h2)

lemma foldl_max_ge : ∀ (l : List ℚ) (a : ℚ), ∀ x ∈ a :: l, x ≤ l.foldl max a := by
  intro l
  induction l with
  | nil => intro a x hx; simp at hx; simp [hx]
  | cons b t ih =>
    intro a x hx
    rw [List.foldl_cons]
    have hbase : max a b ≤ t.foldl max (max a b) := ih (max a b) _ (List.mem_cons_self _ _)
    rcases List.mem_cons.1 hx with rfl | hx2
    · exact le_trans (le_max_left _ _) hbase
    · rcases List.mem_cons.1 hx2 with rfl | hx3
      · exact le_trans (le_max_right _ _) hbase
      · exact ih (max a b) _ (List.mem_cons_of_mem _ hx3)

/-! ### Claim theorems -/

/-- C1: For every (competitor, date) cell where both cells are non-empty,
the classifier reduces each cell to a scalar — a plain price to itself, a
range cell to its (stored) lower bound — and classifies the ratio
competitor/principal with strict comparisons and threshold 0.05: below
`1 - 0.05` is AMEAÇA (Threat), above `1 + 0.05` is SEGURO (Safe), and the
closed band in between — the boundaries included — is NEUTRO.  With
principal 100: competitor 95 is NEUTRO, 94.99 is AMEAÇA, 105.01 is
SEGURO. -/
theorem comparador_reducao_e_limiar :
    (∀ p : ℚ, extrairValor (.preco p) = some p) ∧
    (∀ mn mx : ℤ, extrairValor (.faixa mn mx) = some (mn : ℚ)) ∧
    classificar (.preco 95) (.preco 100) = some .neutro ∧
    classificar (.preco (9499/100)) (.preco 100) = some .ameaca ∧
    classificar (.preco (10501/100)) (.preco 100) = some .seguro ∧
    (∀ (cc cp : MatrizVal) (vc vp : ℚ),
      extrairValor cc = some vc → extrairValor cp = some vp → 0 < vp →
      ((classificar cc cp = some .ameaca ↔ vc / vp < 1 - 5/100) ∧
       (classificar cc cp = some .seguro ↔ 1 + 5/100 < vc / vp) ∧
       (classificar cc cp = some .neutro ↔ 1 - 5/100 ≤ vc / vp ∧ vc / vp ≤ 1 + 5/100))) := by
  refine ⟨fun p => rfl, fun mn mx => rfl, ?_, ?_, ?_, ?_⟩
  · norm_num [classificar, extrairValor]
  · norm_num [classificar, extrairValor]
  · norm_num [classificar, extrairValor]
  · intro cc cp vc vp hc hp hvp
    have e : classificar cc cp =
        if vc < vp * (19/20) then some Classe.ameaca
        else if vp * (21/20) < vc then some Classe.seguro
        else some Classe.neutro := by
      unfold classificar
      rw [hp, hc]
    rw [e]
    split_ifs with h1 h2
    · have hr : vc / vp < 1 - 5/100 := (div_lt_iff₀ hvp).mpr (by linarith)
      exact ⟨iff_of_true rfl hr,
        iff_of_false (by simp) (by intro hs; linarith),
        iff_of_false (by simp) (by intro hn; rcases hn with ⟨ha, _⟩; linarith)⟩
    · have hr : 1 + 5/100 < vc / vp := (lt_div_iff₀ hvp).mpr (by linarith)
      exact ⟨iff_of_false (by simp) (by intro ha; linarith),
        iff_of_true rfl hr,
        iff_of_false (by simp) (by intro hn; rcases hn with ⟨_, hb⟩; linarith)⟩
    · push_neg at h1 h2
      have ha : 1 - 5/100 ≤ vc / vp := (le_div_iff₀ hvp).mpr (by linarith)
      have hb : vc / vp ≤ 1 + 5/100 := (div_le_iff₀ hvp).mpr (by linarith)
      exact ⟨iff_of_false (by simp) (by intro hx; linarith),
        iff_of_false (by simp) (by intro hx; linarith),
        iff_of_true rfl ⟨ha, hb⟩⟩

/-- C1 witness: concrete use of the classification characterisation at
competitor 94, principal 100 (ratio 0.94, an AMEAÇA). -/
theorem comparador_reducao_e_limiar_witness :
    extrairValor (MatrizVal.preco 94) = some 94 ∧
    extrairValor (MatrizVal.preco 100) = some 100 ∧
    (0 : ℚ) < 100 ∧
    classificar (.preco 94) (.preco 100) = some .ameaca := by
  refine ⟨rfl, rfl, by norm_num, ?_⟩
  exact ((comparador_reducao_e_limiar.2.2.2.2.2 (.preco 94) (.preco 100) 94 100
    rfl rfl (by norm_num)).1).mpr (by norm_num)

/-- C4: A (competitor, date) cell is left unclassified exactly when the
competitor's cell or the principal's cell of that date is empty; the
classification function is total (never an error) and in that case yields
none — never NEUTRO, AMEAÇA or SEGURO. -/
theorem classificar_vazio_sem_classe (cc cp : MatrizVal) :
    classificar cc cp = none ↔ cc = MatrizVal.nulo ∨ cp = MatrizVal.nulo := by
  cases cc <;> cases cp <;>
    simp only [classificar, extrairValor] <;>
    (try simp) <;>
    (split_ifs <;> simp)

/-- C2 counterexample: for observations [8.4, 12] the code stores the
display cell `"8→12"` — lower bound 8, the rounded price — while the
claim prescribes Range(8.4, 12) with the exact minimum 8.4; the stored
cell does not carry the claimed values. -/
theorem celula_faixa_arredondada_cex :
    cellOf [42/5, 12] = MatrizVal.faixa 8 12 ∧
    specCellOf [42/5, 12] = SpecCell.range (42/5) 12 ∧
    ¬ corresponde (MatrizVal.faixa 8 12) (SpecCell.range (42/5) 12) := by
  refine ⟨?_, ?_, ?_⟩
  · have e1 : fmt0 (42/5) = 8 := fmt0_of_lt_half (by norm_num) (by norm_num)
    have e2 : fmt0 12 = 12 := fmt0_of_lt_half (by norm_num) (by norm_num)
    norm_num [cellOf, min_def, max_def, e1, e2]
  · norm_num [specCellOf, min_def, max_def]
  · intro h
    rcases h with ⟨h1, _⟩
    norm_num at h1

/-- C2 (amended): the cell of a (hotel, date) key depends only on that
key's observed prices — no observation gives an empty cell, one gives its
price, two or more (all positive) give a range cell over the minimum and
maximum of the prices with both bounds rounded to whole units for
display, degenerating to the plain minimum price when min = max. -/
theorem celula_por_observacoes :
    cellOf [] = MatrizVal.nulo ∧
    (∀ p : ℚ, cellOf [p] = MatrizVal.preco p) ∧
    (∀ (p q : ℚ) (ps : List ℚ), (∀ r ∈ p :: q :: ps, 0 < r) →
      ∀ mn mx : ℚ,
        mn ∈ p :: q :: ps → (∀ x ∈ p :: q :: ps, mn ≤ x) →
        mx ∈ p :: q :: ps → (∀ x ∈ p :: q :: ps, x ≤ mx) →
        (mn = mx → cellOf (p :: q :: ps) = MatrizVal.preco mn) ∧
        (mn ≠ mx → cellOf (p :: q :: ps) = MatrizVal.faixa (fmt0 mn) (fmt0 mx))) := by
  refine ⟨rfl, fun p => rfl, ?_⟩
  intro p q ps hpos mn mx hmn hmnle hmx hmxge
  have hMNmem : (q :: ps).foldl min p ∈ p :: q :: ps := foldl_min_mem _ _
  have hMNle : ∀ x ∈ p :: q :: ps, (q :: ps).foldl min p ≤ x := foldl_min_le _ _
  have hMXmem : (q :: ps).foldl max p ∈ p :: q :: ps := foldl_max_mem _ _
  have hMXge : ∀ x ∈ p :: q :: ps, x ≤ (q :: ps).foldl max p := foldl_max_ge _ _
  have eqmn : mn = (q :: ps).foldl min p :=
    le_antisymm (hmnle _ hMNmem) (hMNle _ hmn)
  have eqmx : mx = (q :: ps).foldl max p :=
    le_antisymm (hMXge _ hmx) (hmxge _ hMXmem)
  have hMNpos : 0 < (q :: ps).foldl min p := hpos _ hMNmem
  have hcell : cellOf (p :: q :: ps) =
      if 0 < (((q :: ps).foldl max p - (q :: ps).foldl min p) / (q :: ps).foldl min p) * 100
      then MatrizVal.faixa (fmt0 ((q :: ps).foldl min p)) (fmt0 ((q :: ps).foldl max p))
      else MatrizVal.preco ((q :: ps).foldl min p) := rfl
  have key : (0 < (((q :: ps).foldl max p - (q :: ps).foldl min p) / (q :: ps).foldl min p) * 100)
      ↔ (q :: ps).foldl min p < (q :: ps).foldl max p := by
    constructor
    · intro h0
      have h1 : 0 < ((q :: ps).foldl max p - (q :: ps).foldl min p) / (q :: ps).foldl min p := by
        linarith
      rcases div_pos_iff.mp h1 with ⟨h2, _⟩ | ⟨_, h3⟩
      · linarith
      · linarith
    · intro hlt
      have h1 : 0 < ((q :: ps).foldl max p - (q :: ps).foldl min p) / (q :: ps).foldl min p :=
        div_pos (by linarith) hMNpos
      linarith
  constructor
  · intro h
    rw [hcell, if_neg, ← eqmn]
    intro hc
    have := key.mp hc
    rw [← eqmn, ← eqmx] at this
    exact absurd h (ne_of_lt this)
  · intro hne
    have hle : mn ≤ mx := hmnle _ hmx
    have hlt : (q :: ps).foldl min p < (q :: ps).foldl max p := by
      rw [← eqmn, ← eqmx]
      exact lt_of_le_of_ne hle hne
    rw [hcell, if_pos (key.mpr hlt), ← eqmn, ← eqmx]

/-- C2 witness: the spec's own examples — [10, 10, 10] degenerates to the
point value 10, [8, 12] gives the 8→12 range cell. -/
theorem celula_por_observacoes_witness :
    cellOf [10, 10, 10] = MatrizVal.preco 10 ∧
    cellOf [8, 12] = MatrizVal.faixa (fmt0 8) (fmt0 12) := by
  have h1 := (celula_por_observacoes.2.2 10 10 [10]
    (by intro r hr; simp at hr; simp [hr]) 10 10
    (by simp) (by intro x hx; simp at hx; simp [hx])
    (by simp) (by intro x hx; simp at hx; simp [hx])).1 rfl
  have h2 := (celula_por_observacoes.2.2 8 12 []
    (by intro r hr; simp at hr; rcases hr with rfl | rfl <;> norm_num) 8 12
    (by simp) (by intro x hx; simp at hx; rcases hx with rfl | rfl <;> norm_num)
    (by simp) (by intro x hx; simp at hx; rcases hx with rfl | rfl <;> norm_num)).2
    (by norm_num)
  exact ⟨h1, h2⟩

lemma map_fst_pair {α β : Type} (l : List α) (F : α → β) :
    (l.map (fun a => (a, F a))).map Prod.fst = l := by
  induction l with
  | nil => rfl
  | cons a t ih => simp only [List.map_cons, List.map_nil, ih]

lemma sum_map_const {α : Type} (l : List α) (n : ℕ) :
    (l.map (fun _ => n)).sum = l.length * n := by
  induction l with
  | nil => simp
  | cons a t ih => simp [ih, Nat.succ_mul, Nat.add_comm]

lemma tarifasPeriodo_idem (ts : List Tarifa) (ini fim : ℕ) :
    tarifasPeriodo (tarifasPeriodo ts ini fim) ini fim = tarifasPeriodo ts ini fim := by
  unfold tarifasPeriodo
  rw [List.filter_filter]
  simp

lemma montarMatriz_eq_some {p : String} {cs : List String} {ini fim : ℕ}
    {ts : List Tarifa} {g : List (String × List (ℕ × MatrizVal))}
    (h : montarMatriz p cs ini fim ts = some g) :
    g = (p :: cs).map (fun h0 =>
      (h0, (datasPeriodo ini fim).map (fun d =>
        (d, cellOf ((((tarifasPeriodo ts ini fim).filter
            (fun t => t.hotel ∈ p :: cs)).filter
            (fun t => t.hotel = h0 ∧ t.data = d)).map (·.preco)))))) := by
  simp only [montarMatriz] at h
  split at h
  · exact absurd h (by simp)
  · split at h
    · exact absurd h (by simp)
    · exact (Option.some.inj h).symm

/-- C3 counterexample: with the non-empty range [0, 1] and an empty
observation set the page stops at the "Nenhuma tarifa encontrada"
warning and builds no matrix at all, while the claim prescribes a grid of
2 × 2 = 4 empty cells. -/
theorem matriz_sem_tarifas_cex :
    montarMatriz "A" ["B"] 0 1 [] = none := by
  decide

/-- C3 (amended): whenever at least one observation of a matrix hotel
falls inside the range — otherwise the page shows a warning and produces
no matrix — the matrix has one row per hotel of `principal ::
concorrentes` in order, each row has one cell per date of the inclusive
range, hence exactly `(#hotels) × (#days)` cells in total; and
observations dated outside the range never influence the outcome. -/
theorem matriz_forma_completa (principal : String) (concorrentes : List String)
    (ini fim : ℕ) (tarifas : List Tarifa) :
    montarMatriz principal concorrentes ini fim tarifas
      = montarMatriz principal concorrentes ini fim (tarifasPeriodo tarifas ini fim) ∧
    (∀ g, ini ≤ fim → montarMatriz principal concorrentes ini fim tarifas = some g →
      g.map Prod.fst = principal :: concorrentes ∧
      (∀ row ∈ g, row.2.map Prod.fst = datasPeriodo ini fim) ∧
      (g.map (fun row => row.2.length)).sum
        = (concorrentes.length + 1) * (fim + 1 - ini)) := by
  constructor
  · unfold montarMatriz
    rw [tarifasPeriodo_idem]
  · intro g hle hg
    have hgeq := montarMatriz_eq_some hg
    subst hgeq
    refine ⟨?_, ?_, ?_⟩
    · exact map_fst_pair _ _
    · intro row hrow
      rcases List.mem_map.1 hrow with ⟨h0, _, rfl⟩
      exact map_fst_pair _ _
    · rw [List.map_map]
      have hlen : ∀ h0 : String,
          ((fun row : String × List (ℕ × MatrizVal) => row.2.length) ∘ (fun h0 =>
            (h0, (datasPeriodo ini fim).map (fun d =>
              (d, cellOf ((((tarifasPeriodo tarifas ini fim).filter
                  (fun t => t.hotel ∈ principal :: concorrentes)).filter
                  (fun t => t.hotel = h0 ∧ t.data = d)).map (·.preco))))))) h0
            = fim + 1 - ini := by
        intro h0
        simp [datasPeriodo]
      rw [funext hlen, sum_map_const]
      simp [Nat.mul_comm]

/-- C3 witness: a concrete two-hotel, two-day matrix — one observation
for hotel A on day 0 yields the full 2 × 2 grid with the three remaining
cells empty. -/
theorem matriz_forma_completa_witness :
    (0 : ℕ) ≤ 1 ∧
    montarMatriz "A" ["B"] 0 1 [⟨"A", 0, 100, 1⟩]
      = some [("A", [(0, MatrizVal.preco 100), (1, .nulo)]), ("B", [(0, .nulo), (1, .nulo)])] ∧
    ([("A", [(0, MatrizVal.preco 100), (1, MatrizVal.nulo)]),
      ("B", [(0, MatrizVal.nulo), (1, MatrizVal.nulo)])].map Prod.fst = ["A", "B"]) := by
  have hm : montarMatriz "A" ["B"] 0 1 [⟨"A", 0, 100, 1⟩]
      = some [("A", [(0, MatrizVal.preco 100), (1, .nulo)]), ("B", [(0, .nulo), (1, .nulo)])] := by
    simp +decide [montarMatriz, tarifasPeriodo, datasPeriodo, cellOf, List.range'_succ]
  exact ⟨by norm_num, hm,
    ((matriz_forma_completa "A" ["B"] 0 1 [⟨"A", 0, 100, 1⟩]).2 _ (by norm_num) hm).1⟩

/-- C5: Deleting a hotel removes exactly its rates, every relationship it
appears in (as principal or as competitor), its import batches and its
hotel row; every row of another hotel survives unchanged. -/
theorem excluir_hotel_cascata (s : Store) (nome : String) :
    (∀ t : Tarifa, t ∈ (excluirHotel s nome).tarifas ↔ t ∈ s.tarifas ∧ t.hotel ≠ nome) ∧
    (∀ r : Relacionamento, r ∈ (excluirHotel s nome).relacionamentos ↔
      r ∈ s.relacionamentos ∧ r.principal ≠ nome ∧ r.concorrente ≠ nome) ∧
    (∀ i : Importacao, i ∈ (excluirHotel s nome).importacoes ↔
      i ∈ s.importacoes ∧ i.hotel ≠ nome) ∧
    (∀ h : Hotel, h ∈ (excluirHotel s nome).hoteis ↔ h ∈ s.hoteis ∧ h.nome ≠ nome) := by
  refine ⟨?_, ?_, ?_, ?_⟩ <;> intro x <;>
    simp [excluirHotel, List.mem_filter, not_or]

lemma foldl_criar_rel (p : String) (cs : List String) (st : Store) :
    (cs.foldl (fun st c => criarRelacionamento st p c) st).relacionamentos
      = st.relacionamentos ++ cs.map (fun c => ⟨p, c⟩) := by
  induction cs generalizing st with
  | nil => simp
  | cons c t ih =>
    rw [List.foldl_cons, ih]
    simp [criarRelacionamento]

lemma filtro_principal_apos_excluir (l : List Relacionamento) (p : String) :
    (l.filter (fun r => ¬ r.principal = p)).filter (fun r => r.principal = p) = [] := by
  induction l with
  | nil => rfl
  | cons a t ih => by_cases h : a.principal = p <;> simp [List.filter_cons, h, ih]

lemma filtro_mapa_proprio (p : String) (cs : List String) :
    ((cs.map (fun c => (⟨p, c⟩ : Relacionamento))).filter (fun r => r.principal = p))
      = cs.map (fun c => ⟨p, c⟩) := by
  induction cs with
  | nil => rfl
  | cons c t ih => simp [List.filter_cons, ih]

lemma mapa_concorrente_mk (p : String) (cs : List String) :
    (cs.map (fun c => (⟨p, c⟩ : Relacionamento))).map (fun r => r.concorrente) = cs := by
  induction cs with
  | nil => rfl
  | cons c t ih => simp only [List.map_cons, ih]

lemma obter_apos_salvar (s : Store) (p : String) (cs : List String) :
    obterConcorrentes (salvarRelacionamentos s p cs) p = cs := by
  unfold obterConcorrentes salvarRelacionamentos
  rw [foldl_criar_rel]
  simp only [excluirRelacionamentos]
  rw [List.filter_append, filtro_principal_apos_excluir, filtro_mapa_proprio,
    List.nil_append]
  exact mapa_concorrente_mk p cs

/-- C6: Saving a competitor set is a full replace — the resolved
competitor list afterwards is exactly the saved set, whatever the prior
state, and saving the same set twice resolves to the same competitors as
saving it once. -/
theorem salvar_relacionamentos_substituicao (s : Store) (principal : String)
    (selecionados : List String) :
    obterConcorrentes (salvarRelacionamentos s principal selecionados) principal
      = selecionados ∧
    obterConcorrentes
        (salvarRelacionamentos (salvarRelacionamentos s principal selecionados)
          principal selecionados) principal
      = obterConcorrentes (salvarRelacionamentos s principal selecionados) principal :=
  ⟨obter_apos_salvar s principal selecionados,
   (obter_apos_salvar _ principal selecionados).trans
     (obter_apos_salvar s principal selecionados).symm⟩

/-- C7: Deleting an import batch removes only the batch row: the tarifas
table (and every other table but importacoes) is exactly what it was
before, and the importacoes table keeps exactly the rows of other ids. -/
theorem excluir_importacao_preserva_tarifas (s : Store) (importacaoId : ℕ) :
    (excluirImportacao s importacaoId).tarifas = s.tarifas ∧
    (excluirImportacao s importacaoId).hoteis = s.hoteis ∧
    (excluirImportacao s importacaoId).relacionamentos = s.relacionamentos ∧
    (∀ i : Importacao, i ∈ (excluirImportacao s importacaoId).importacoes ↔
      i ∈ s.importacoes ∧ i.id ≠ importacaoId) := by
  unfold excluirImportacao
  split_ifs with h
  · refine ⟨rfl, rfl, rfl, ?_⟩
    intro i
    rw [List.isEmpty_iff] at h
    have hnone : ∀ j ∈ s.importacoes, j.id ≠ importacaoId := by
      intro j hj hid
      have : j ∈ s.importacoes.filter (fun i => i.id = importacaoId) :=
        List.mem_filter.mpr ⟨hj, by simp [hid]⟩
      rw [h] at this
      simp at this
    exact ⟨fun hi => ⟨hi, hnone i hi⟩, fun hi => hi.1⟩
  · refine ⟨rfl, rfl, rfl, ?_⟩
    intro i
    simp [List.mem_filter]

/-- C8 counterexample: the store API allows duplicate relationship rows
(`criar_relacionamento` is a plain INSERT with no uniqueness constraint),
and `obter_concorrentes` (a SELECT without DISTINCT) then returns the
same competitor twice — not the duplicate-free set the claim asserts for
every store state. -/
theorem obter_concorrentes_duplicados_cex :
    obterConcorrentes (Store.mk [] [⟨"A", "B"⟩, ⟨"A", "B"⟩] [] []) "A" = ["B", "B"] ∧
    ¬ (obterConcorrentes (Store.mk [] [⟨"A", "B"⟩, ⟨"A", "B"⟩] [] []) "A").Nodup := by
  decide

/-- C8 (amended): `obter_concorrentes` returns one competitor name per
relationship row of the primary — its elements are exactly the registered
competitors, but duplicate rows yield duplicate names — and it returns
the empty list, not an error, when the hotel is unknown or has no
configured competitors. -/
theorem obter_concorrentes_caracterizacao (s : Store) (principal : String) :
    (∀ c : String, c ∈ obterConcorrentes s principal ↔
      ∃ r ∈ s.relacionamentos, r.principal = principal ∧ r.concorrente = c) ∧
    ((∀ r ∈ s.relacionamentos, r.principal ≠ principal) →
      obterConcorrentes s principal = []) := by
  constructor
  · intro c
    simp only [obterConcorrentes, List.mem_map, List.mem_filter, decide_eq_true_eq]
    constructor
    · rintro ⟨r, ⟨hr, hp⟩, hc⟩
      exact ⟨r, hr, hp, hc⟩
    · rintro ⟨r, hr, hp, hc⟩
      exact ⟨r, ⟨hr, hp⟩, hc⟩
  · intro hnone
    unfold obterConcorrentes
    rw [List.filter_eq_nil_iff.mpr (by intro r hr; simpa using hnone r hr)]
    rfl

/-- C8 witness: a hotel with no relationship rows resolves to the empty
competitor list. -/
theorem obter_concorrentes_caracterizacao_witness :
    obterConcorrentes (Store.mk [] [⟨"A", "B"⟩] [] []) "Z" = [] :=
  (obter_concorrentes_caracterizacao (Store.mk [] [⟨"A", "B"⟩] [] []) "Z").2 (by decide)

lemma foldl_importar (hotel : String) (linhas : List LinhaExcel) (st : Store) :
    linhas.foldl (fun st linha =>
        { st with tarifas :=
            st.tarifas ++ [⟨hotel, linha.data, linha.preco, linha.sequencia.getD 1⟩] }) st
      = { st with tarifas := st.tarifas
            ++ linhas.map (fun linha => ⟨hotel, linha.data, linha.preco, linha.sequencia.getD 1⟩) } := by
  induction linhas generalizing st with
  | nil => simp
  | cons a t ih =>
    rw [List.foldl_cons, ih]
    simp

/-- C9: A bulk import inserts exactly one tarifa row per input row and
reports the input row count, but records no import batch: the importacoes
table (and every table but tarifas) is unchanged, and the batch-title
argument has no effect on the result at all. -/
theorem importar_tarifas_sem_lote (s : Store) (hotel : String) (linhas : List LinhaExcel)
    (t1 t2 : String) :
    (importarTarifasExcel s hotel linhas t1).2 = linhas.length ∧
    (importarTarifasExcel s hotel linhas t1).1.tarifas
      = s.tarifas ++ linhas.map (fun linha =>
          ⟨hotel, linha.data, linha.preco, linha.sequencia.getD 1⟩) ∧
    (importarTarifasExcel s hotel linhas t1).1.tarifas.length
      = s.tarifas.length + linhas.length ∧
    (importarTarifasExcel s hotel linhas t1).1.importacoes = s.importacoes ∧
    (importarTarifasExcel s hotel linhas t1).1.hoteis = s.hoteis ∧
    (importarTarifasExcel s hotel linhas t1).1.relacionamentos = s.relacionamentos ∧
    importarTarifasExcel s hotel linhas t1 = importarTarifasExcel s hotel linhas t2 := by
  unfold importarTarifasExcel
  rw [foldl_importar]
  refine ⟨rfl, rfl, by simp, rfl, rfl, rfl, rfl⟩

/-- C10: Renaming a hotel rewrites only the hoteis table: tarifas,
relacionamentos and importacoes are untouched (their rows keep the old
name), and the tarifas reachable by filtering on either name are exactly
what they were before — the old rows are not migrated to the new name. -/
theorem atualizar_hotel_somente_cadastro (s : Store) (nomeAntigo nomeNovo url : String) :
    (atualizarHotel s nomeAntigo nomeNovo url).tarifas = s.tarifas ∧
    (atualizarHotel s nomeAntigo nomeNovo url).relacionamentos = s.relacionamentos ∧
    (atualizarHotel s nomeAntigo nomeNovo url).importacoes = s.importacoes ∧
    listarTarifasPorHotel (atualizarHotel s nomeAntigo nomeNovo url) nomeNovo
      = listarTarifasPorHotel s nomeNovo ∧
    listarTarifasPorHotel (atualizarHotel s nomeAntigo nomeNovo url) nomeAntigo
      = listarTarifasPorHotel s nomeAntigo ∧
    (atualizarHotel s nomeAntigo nomeNovo url).hoteis
      = s.hoteis.map (fun h =>
          if h.nome = nomeAntigo then ⟨nomeNovo, url⟩ else h) :=
  ⟨rfl, rfl, rfl, rfl, rfl, rfl⟩

end RateShopper
